import Mathlib

/-!
Shallow embedding of the property-declaration rewrite pass implemented in
`src/rewriter/Prop.cc`.

Expressions are modelled as a purely syntactic tree mirroring the
`ast::Expression` node kinds that the pass inspects and builds.  Source
locations are attribution metadata only: they never influence which nodes are
produced, so they are omitted from the embedding.  AST ownership and deep
copies are trivial over immutable Lean values, so the clone helper
(`ASTUtil.dupType`) validates its argument and returns it unchanged, exactly
as a deep copy of an immutable value would.

Interned names (`core::NameRef`) are modelled as `String`, with the empty
string standing for `core::NameRef::noName()`; `name.addAt` prepends `"@"`
and `name.addEq` appends `"="`.  The resolved root symbol
(`core::Symbols::root()`) is modelled as the resolved constant `"<root>"`.
-/

/-- AST expressions, mirroring the `ast::Expression` node kinds used by
`src/rewriter/Prop.cc`.  `raiseUnimplemented` stands for the opaque
statement built by `ast::MK::RaiseUnimplemented`, `lambdaThunk` for a
zero-argument deferred-evaluation expression (a lambda literal), and
`sigAnn` for the method signature annotation built by the `ast::MK::Sig`
family (`params = none` for a parameterless sig, `ret = none` for a void
sig). -/
inductive Expr where
  | emptyTree
  | self
  | nilLit
  | falseLit
  | trueLit
  | intLit (n : Int)
  | strLit (s : String)
  | symLit (s : String)
  | constLit (sym : String)
  | unresolvedConst (scope : Expr) (cnst : String)
  | send (recv : Expr) (fn : String) (args : List Expr)
  | hash (keys : List Expr) (vals : List Expr)
  | lvar (name : String)
  | ivar (name : String)
  | assign (lhs rhs : Expr)
  | insSeq (stats : List Expr) (expr : Expr)
  | keywordArg (e : Expr)
  | optionalArg (arg default_ : Expr)
  | restArg (e : Expr)
  | methodDef (name : String) (args : List Expr) (body : Expr)
  | classDef (cname : Expr) (ancestors : List Expr) (rhs : List Expr)
  | zsuper
  | raiseUnimplemented
  | lambdaThunk (body : Expr)
  | sigAnn (params : Option Expr) (ret : Option Expr)

namespace MK

/-- Modelled from the spec: the `ast::MK` node builders used by the pass.
Each builder constructs the corresponding AST node; locations are dropped. -/
def Constant (sym : String) : Expr := Expr.constLit sym

def Nil : Expr := Expr.nilLit

def Self : Expr := Expr.self

def Send0 (recv : Expr) (fn : String) : Expr := Expr.send recv fn []

def Send1 (recv : Expr) (fn : String) (a : Expr) : Expr := Expr.send recv fn [a]

def Send2 (recv : Expr) (fn : String) (a b : Expr) : Expr := Expr.send recv fn [a, b]

def Symbol (s : String) : Expr := Expr.symLit s

def Hash0 : Expr := Expr.hash [] []

def Hash1 (k v : Expr) : Expr := Expr.hash [k] [v]

def Hash (keys vals : List Expr) : Expr := Expr.hash keys vals

def Local (n : String) : Expr := Expr.lvar n

def Instance (n : String) : Expr := Expr.ivar n

def Assign (lhs rhs : Expr) : Expr := Expr.assign lhs rhs

def InsSeq (stats : List Expr) (e : Expr) : Expr := Expr.insSeq stats e

def InsSeq1 (stat e : Expr) : Expr := Expr.insSeq [stat] e

def KeywordArg (e : Expr) : Expr := Expr.keywordArg e

def OptionalArg (arg default_ : Expr) : Expr := Expr.optionalArg arg default_

def RestArg (e : Expr) : Expr := Expr.restArg e

def SyntheticMethod (n : String) (args : List Expr) (body : Expr) : Expr :=
  Expr.methodDef n args body

def SyntheticMethod1 (n : String) (arg body : Expr) : Expr := Expr.methodDef n [arg] body

def Class (cname : Expr) (ancestors rhs : List Expr) : Expr := Expr.classDef cname ancestors rhs

def ZSuper : Expr := Expr.zsuper

def RaiseUnimplemented : Expr := Expr.raiseUnimplemented

def EmptyTree : Expr := Expr.emptyTree

def UnresolvedConstant (scope : Expr) (n : String) : Expr := Expr.unresolvedConst scope n

def Untyped : Expr := Expr.send (Constant "T") "untyped" []

def Nilable (t : Expr) : Expr := Expr.send (Constant "T") "nilable" [t]

def Unsafe (e : Expr) : Expr := Expr.send (Constant "T") "unsafe" [e]

def AssertType (val ty : Expr) : Expr := Expr.send (Constant "T") "assert_type!" [val, ty]

def Sig (params ret : Expr) : Expr := Expr.sigAnn (some params) (some ret)

def Sig0 (ret : Expr) : Expr := Expr.sigAnn none (some ret)

def Sig1 (key keyTy ret : Expr) : Expr := Expr.sigAnn (some (Expr.hash [key] [keyTy])) (some ret)

def SigVoid (params : Expr) : Expr := Expr.sigAnn (some params) none

end MK

/-- Source `src/rewriter/Prop.cc` lines 18-29: is the expression the constant
`T`, either unscoped or scoped by the resolved root symbol. -/
def isT : Expr → Bool
  | .unresolvedConst scope c =>
    c == "T" &&
      (match scope with
       | .emptyTree => true
       | .constLit s => s == "<root>"
       | _ => false)
  | _ => false

/-- Source lines 31-34: a call to `T.nilable`. -/
def isTNilable : Expr → Bool
  | .send recv fn _ => fn == "nilable" && isT recv
  | _ => false

/-- Source lines 36-39: the constant `T::Struct` (or `::T::Struct`). -/
def isTStruct : Expr → Bool
  | .unresolvedConst scope c => c == "Struct" && isT scope
  | _ => false

mutual

/-- Modelled from the spec: the shared "is this expression structurally a
valid type expression" predicate backing `ASTUtil::dupType`
(`rewriter/Util.cc`, not under `src/`): resolved constants, unresolved
constants whose scope chain ends in the empty tree or the resolved root
symbol, and calls all of whose receiver and arguments are themselves valid
type expressions. -/
def isDupableType : Expr → Bool
  | .constLit _ => true
  | .unresolvedConst Expr.emptyTree _ => true
  | .unresolvedConst (Expr.constLit s) _ => s == "<root>"
  | .unresolvedConst (Expr.unresolvedConst sc c) _ =>
    isDupableType (Expr.unresolvedConst sc c)
  | .unresolvedConst _ _ => false
  | .send recv _ args => isDupableType recv && isDupableTypeList args
  | _ => false

def isDupableTypeList : List Expr → Bool
  | [] => true
  | e :: es => isDupableType e && isDupableTypeList es

end

namespace ASTUtil

/-- Modelled from the spec: `ASTUtil::dupType` (`rewriter/Util.cc`, not under
`src/`) deep-copies a type expression, or returns null when the expression is
not recognizably a type.  Over immutable values the copy is the value
itself. -/
def dupType (e : Expr) : Option Expr :=
  if isDupableType e then some e else none

/-- Modelled from the spec: `ASTUtil::thunkBody` (not under `src/`) unwraps a
zero-argument deferred-evaluation expression to its body, and fails on
anything else. -/
def thunkBody : Expr → Option Expr
  | .lambdaThunk body => some body
  | _ => none

/-- Is this hash key the symbol literal `name`. -/
def isSymKey (k : Expr) (name : String) : Bool :=
  match k with
  | .symLit s => s == name
  | _ => false

/-- Is this literal falsy (a nil or false literal). -/
def isFalsyLit : Expr → Bool
  | .nilLit => true
  | .falseLit => true
  | _ => false

/-- Modelled from the spec: `ASTUtil::hasHashValue` (not under `src/`) — the
options hash has an entry keyed by the symbol `name`. -/
def hasHashValue (pairs : List (Expr × Expr)) (name : String) : Bool :=
  pairs.any fun kv => isSymKey kv.1 name

/-- Modelled from the spec: `ASTUtil::hasTruthyHashValue` (not under `src/`)
— the options hash has an entry keyed by the symbol `name` whose value is
truthy (not a nil or false literal). -/
def hasTruthyHashValue (pairs : List (Expr × Expr)) (name : String) : Bool :=
  match pairs.find? (fun kv => isSymKey kv.1 name) with
  | some kv => !isFalsyLit kv.2
  | none => false

/-- Modelled from the spec: `ASTUtil::extractHashValue` (not under `src/`)
removes the first entry keyed by the symbol `name` from the (private copy of
the) options hash, returning the value and the remaining hash. -/
def extractHashValue : List (Expr × Expr) → String → Option Expr × List (Expr × Expr)
  | [], _ => (none, [])
  | kv :: rest, name =>
    if isSymKey kv.1 name then (some kv.2, rest)
    else
      let r := extractHashValue rest name
      (r.1, kv :: r.2)

/-- Modelled from the spec: `ASTUtil::isProbablySymbol` (`rewriter/Util.cc`,
not under `src/`) — the type expression is recognizably the well-known
constant `name` (unscoped, root-scoped or `T`-scoped), possibly applied via
the `[]` generic-instantiation call. -/
def isProbablySymbol : Expr → String → Bool
  | .unresolvedConst scope c, name =>
    c == name &&
      (match scope with
       | .emptyTree => true
       | .constLit s => s == "<root>"
       | sc => isT sc)
  | .constLit s, name => s == name
  | .send recv fn _, name => fn == "[]" && isProbablySymbol recv name
  | _, _ => false

/-- Modelled from the spec: `ASTUtil::mkGet` (not under `src/`) — a synthetic
zero-argument method definition. -/
def mkGet (name : String) (body : Expr) : Expr := Expr.methodDef name [] body

/-- Modelled from the spec: `ASTUtil::mkSet` (not under `src/`) — a synthetic
one-argument method definition whose parameter is the local `arg0`. -/
def mkSet (name : String) (body : Expr) : Expr :=
  Expr.methodDef name [MK.Local "arg0"] body

/-- Modelled from the spec: `ASTUtil::mkMutator` (not under `src/`) — a
reference to the specialized mutator-proxy type named `className`.  The exact
constant scope chain is immaterial to the pass. -/
def mkMutator (className : String) : Expr :=
  Expr.unresolvedConst Expr.emptyTree className

end ASTUtil

/-- Source lines 41-52: the structured record extracted from one recognized
property declaration (`struct PropInfo`).  `""` models `NameRef::noName()`;
the location fields are dropped. -/
structure PropInfo where
  isImmutable : Bool := false
  name : String := ""
  type : Expr := Expr.emptyTree
  default_ : Option Expr := none
  computedByMethodName : String := ""
  foreign : Option Expr := none
  ifunset : Option Expr := none

/-- The two recoverable diagnostics the pass can emit
(`core::errors::Rewriter::ComputedBySymbol`, line 171, and
`core::errors::Rewriter::PropForeignStrict`, line 183). -/
inductive Diag where
  | computedBySymbol
  | propForeignStrict
deriving Repr, DecidableEq

/-- Source lines 64-97: the switch on the macro name.  Returns the pre-filled
immutability flag, pre-filled name and pre-filled type, or rejects. -/
def classifyFun (fn : String) : Option (Bool × Option String × Option Expr) :=
  if fn == "prop" then some (false, none, none)
  else if fn == "const" then some (true, none, none)
  else if fn == "token_prop" || fn == "timestamped_token_prop" then
    some (false, some "token", some (MK.Constant "String"))
  else if fn == "created_prop" then some (false, some "created", some (MK.Constant "Float"))
  else if fn == "merchant_prop" then some (true, some "merchant", some (MK.Constant "String"))
  else none

/-- Source lines 104-117: resolve the prop's name.  If not pre-filled by an
alias, the first positional argument must exist and be a symbol literal. -/
def resolveName (pre : Option String) (args : List Expr) : Option String :=
  match pre with
  | some n => some n
  | none =>
    match args with
    | Expr.symLit s :: _ => some s
    | _ => none

/-- Source lines 119-131: resolve the prop's type.  If not pre-filled, a
single positional argument is ambiguous; otherwise the second argument must
be a clonable type expression. -/
def resolveType (pre : Option Expr) (args : List Expr) : Option Expr :=
  match pre with
  | some t => some t
  | none =>
    if args.length == 1 then none
    else
      match args[1]? with
      | some t => ASTUtil.dupType t
      | none => none

/-- Source lines 136-143: the options hash is the last positional argument
when that argument is a hash literal, deep-copied into a private working
copy (modelled as the zipped key/value pairs). -/
def rulesOf (args : List Expr) : Option (List (Expr × Expr)) :=
  match args.getLast? with
  | some (Expr.hash ks vs) => some (ks.zip vs)
  | _ => none

/-- Source lines 149-195: parse the recognized option keys off the private
copy of the rules hash, threading the extraction state and collecting the
recoverable diagnostics. -/
def applyRules (base : PropInfo) (rules? : Option (List (Expr × Expr))) :
    PropInfo × List Diag :=
  match rules? with
  | none => (base, [])
  | some rules =>
    -- lines 152-154: immutable: truthy
    let imm := base.isImmutable || ASTUtil.hasTruthyHashValue rules "immutable"
    -- lines 156-161: factory beats default
    let step1 :=
      if ASTUtil.hasTruthyHashValue rules "factory" then
        (some MK.RaiseUnimplemented, rules)
      else if ASTUtil.hasHashValue rules "default" then
        let r := ASTUtil.extractHashValue rules "default"
        (r.1, r.2)
      else (none, rules)
    -- lines 164-175: computed_by must be a symbol literal
    let step2 :=
      if ASTUtil.hasTruthyHashValue step1.2 "computed_by" then
        let r := ASTUtil.extractHashValue step1.2 "computed_by"
        match r.1 with
        | some (Expr.symLit s) => (s, ([] : List Diag), r.2)
        | some _ => ("", [Diag.computedBySymbol], r.2)
        | none => ("", [], r.2)
      else ("", [], step1.2)
    -- lines 177-189: foreign must be a thunk; keep the raw value as fallback
    let step3 :=
      match ASTUtil.extractHashValue step2.2.2 "foreign" with
      | (some v, rest) =>
        match ASTUtil.thunkBody v with
        | some body => (some body, ([] : List Diag), rest)
        | none => (some v, [Diag.propForeignStrict], rest)
      | (none, rest) => (none, [], rest)
    -- lines 191-194: ifunset
    let ifunset := (ASTUtil.extractHashValue step3.2.2 "ifunset").1
    ({ base with
        isImmutable := imm
        default_ := step1.1
        computedByMethodName := step2.1
        foreign := step3.1
        ifunset := ifunset },
      step2.2.1 ++ step3.2.1)

/-- Source lines 59-202 (`parseProp`): classify one call expression as a
property declaration, returning the extracted record and the recoverable
diagnostics, or rejecting silently. -/
def parseProp (fn : String) (args : List Expr) : Option PropInfo × List Diag :=
  match classifyFun fn with
  | none => (none, [])
  | some (imm, preName, preType) =>
    -- lines 99-102: too many args, even if all optional args were provided
    if 4 ≤ args.length then (none, [])
    else
      match resolveName preName args with
      | none => (none, [])
      | some name =>
        match resolveType preType args with
        | none => (none, [])
        | some ty =>
          let rules := rulesOf args
          -- lines 144-147: no rules, but 3 args including name and type
          if rules.isNone && 3 ≤ args.length then (none, [])
          else
            let parsed := applyRules { isImmutable := imm, name := name, type := ty } rules
            -- lines 197-199: nilable types default to nil
            let info :=
              if parsed.1.default_.isNone && isTNilable parsed.1.type then
                { parsed.1 with default_ := some MK.Nil }
              else parsed.1
            (some info, parsed.2)

/-- Deep copy of a type expression at a use site (`ASTUtil::dupType` applied
where the source assumes success).  For valid types this is `some`, so the
fallback to the original value is only a totalization; over immutable values
the copy is the value itself. -/
def dupOr (t : Expr) : Expr := (ASTUtil.dupType t).getD t

/-- Source lines 204-343 (`processProp`): synthesize the ordered replacement
statement sequence for one record: sig+getter, then (unless immutable)
sig+setter, then (if foreign) two sig+method pairs, then (for collection
types only) the nested mutator class. -/
def processProp (ret : PropInfo) (forTStruct : Bool) : List Expr :=
  let name := ret.name
  let getType := dupOr ret.type
  let varName := "@" ++ name
  -- line 219: sig {returns(type)}
  let sigGetter := MK.Sig MK.Hash0 (dupOr getType)
  -- lines 221-237: the getter, in priority order
  let getterNode :=
    if ret.computedByMethodName != "" then
      ASTUtil.mkGet name
        (MK.InsSeq1
          (MK.AssertType
            (MK.Send1 (MK.Send0 MK.Self "class") ret.computedByMethodName (MK.Unsafe MK.Nil))
            (dupOr getType))
          MK.RaiseUnimplemented)
    else if ret.ifunset.isNone && forTStruct then
      ASTUtil.mkGet name (MK.Instance varName)
    else
      ASTUtil.mkGet name MK.RaiseUnimplemented
  let setName := name ++ "="
  -- lines 242-248: the class-level setter, unless immutable
  let setterNodes :=
    if !ret.isImmutable then
      let setType := dupOr ret.type
      [MK.Sig (MK.Hash1 (MK.Symbol "arg0") (dupOr setType)) (dupOr setType),
       ASTUtil.mkSet setName MK.RaiseUnimplemented]
    else []
  -- lines 251-291: the foreign accessors
  let foreignNodes :=
    match ret.foreign with
    | none => []
    | some f =>
      let tys :=
        match ASTUtil.dupType f with
        | none => (MK.Untyped, MK.Untyped)
        | some d => (MK.Nilable d, d)
      [MK.Sig1 (MK.Symbol "opts") MK.Untyped tys.1,
       MK.SyntheticMethod1 (name ++ "_") (MK.RestArg (MK.KeywordArg (MK.Local "opts")))
         MK.RaiseUnimplemented,
       MK.Sig1 (MK.Symbol "opts") MK.Untyped tys.2,
       MK.SyntheticMethod1 (name ++ "_!") (MK.RestArg (MK.KeywordArg (MK.Local "opts")))
         MK.RaiseUnimplemented]
  -- lines 293-340: the nested mutator class
  let mutatorNodes :=
    let setType := dupOr ret.type
    let mutatorSetter :=
      [MK.Sig (MK.Hash1 (MK.Symbol "arg0") (dupOr setType)) (dupOr setType),
       ASTUtil.mkSet setName MK.RaiseUnimplemented]
    let mutator :=
      if ASTUtil.isProbablySymbol ret.type "Hash" then
        -- lines 306-314: Hash[K, V] keeps its two cloned arguments, any other
        -- shape is parameterized with untyped
        let tyArgs :=
          match ret.type with
          | .send _ "[]" [k, v] => (dupOr k, dupOr v)
          | _ => (MK.Untyped, MK.Untyped)
        some (MK.Send2 (ASTUtil.mkMutator "HashMutator") "[]" tyArgs.1 tyArgs.2)
      else if ASTUtil.isProbablySymbol ret.type "Array" then
        -- lines 315-323: Array[E] keeps its cloned argument
        let tyArg :=
          match ret.type with
          | .send _ "[]" [e] => dupOr e
          | _ => MK.Untyped
        some (MK.Send1 (ASTUtil.mkMutator "ArrayMutator") "[]" tyArg)
      else none
    match mutator with
    | some m =>
      [MK.Class (MK.UnresolvedConstant MK.EmptyTree "Mutator") []
        (mutatorSetter ++ [MK.Sig0 (dupOr m), ASTUtil.mkGet name MK.RaiseUnimplemented])]
    | none => []
  [sigGetter, getterNode] ++ setterNodes ++ foreignNodes ++ mutatorNodes

/-- Source lines 354-363: the keyword parameters for the records without a
default value, in original declaration order. -/
def tstructRequiredArgs (props : List PropInfo) : List Expr :=
  props.filterMap fun p =>
    if p.default_.isSome then none else some (MK.KeywordArg (MK.Local p.name))

/-- Source lines 365-375: the optional keyword parameters for the records
with a default value, in original declaration order, carrying the (cloned)
default expression. -/
def tstructOptionalArgs (props : List PropInfo) : List Expr :=
  props.filterMap fun p =>
    p.default_.map fun d => MK.OptionalArg (MK.KeywordArg (MK.Local p.name)) d

/-- Source lines 354-375: the sig's parameter keys, required then optional. -/
def tstructSigKeys (props : List PropInfo) : List Expr :=
  (props.filterMap fun p => if p.default_.isSome then none else some (MK.Symbol p.name)) ++
    (props.filterMap fun p => if p.default_.isSome then some (MK.Symbol p.name) else none)

/-- Source lines 354-375: the sig's parameter types, required then optional. -/
def tstructSigVals (props : List PropInfo) : List Expr :=
  (props.filterMap fun p => if p.default_.isSome then none else some p.type) ++
    (props.filterMap fun p => if p.default_.isSome then some p.type else none)

/-- Source lines 345-391 (`mkTStructInitialize`): the synthesized sig +
constructor for a struct-derived class: required parameters first, optional
parameters second, the body assigning every backing field in original
declaration order and then delegating to the superclass constructor with no
explicit arguments. -/
def mkTStructInitialize (props : List PropInfo) : List Expr :=
  let args := tstructRequiredArgs props ++ tstructOptionalArgs props
  -- lines 377-384: initialize all the instance variables in the body
  let stats := props.map fun p => MK.Assign (MK.Instance ("@" ++ p.name)) (MK.Local p.name)
  let body := MK.InsSeq stats MK.ZSuper
  [MK.SigVoid (MK.Hash (tstructSigKeys props) (tstructSigVals props)),
   MK.SyntheticMethod "initialize" args body]

/-- A class body: its ancestor list and its direct statement list
(`ast::ClassDef`, the fields `Prop::run` reads and rewrites). -/
structure ClassDef where
  ancestors : List Expr
  rhs : List Expr

/-- Source line 409: `ast::cast_tree<ast::Send>`, projecting out the fields
of a call statement that `parseProp` reads (the receiver is never read). -/
def asSend : Expr → Option (String × List Expr)
  | .send _ fn args => some (fn, args)
  | _ => none

/-- Source lines 406-421: the single forward scan over the class body,
building the replacement map (keyed by statement identity, modelled as the
statement's position), the accumulated record list and the emitted
diagnostics. -/
def scanStats (forTStruct : Bool) :
    List Expr → Nat → List (Nat × List Expr) × List PropInfo × List Diag
  | [], _ => ([], [], [])
  | stat :: rest, i =>
    let r := scanStats forTStruct rest (i + 1)
    match asSend stat with
    | some (fn, args) =>
      match parseProp fn args with
      | (some info, ds) => ((i, processProp info forTStruct) :: r.1, info :: r.2.1, ds ++ r.2.2)
      | (none, ds) => (r.1, r.2.1, ds ++ r.2.2)
    | none => r

/-- Lookup in the replacement map by statement identity (position). -/
def lookupRepl (m : List (Nat × List Expr)) (i : Nat) : Option (List Expr) :=
  match m with
  | [] => none
  | kv :: rest => if kv.1 == i then some kv.2 else lookupRepl rest i

/-- Source lines 431-440: rebuild the statement list by re-traversing the
original statement order, emitting each statement unchanged when it has no
stored replacement and substituting its stored replacement sequence
otherwise. -/
def rebuild (m : List (Nat × List Expr)) : List Expr → Nat → List Expr
  | [], _ => []
  | stat :: rest, i =>
    match lookupRepl m i with
    | none => stat :: rebuild m rest (i + 1)
    | some repl => repl ++ rebuild m rest (i + 1)

/-- Source lines 395-441 (`Prop::run`): skip everything under autogeneration
mode; otherwise scan once, prepend the synthesized initializer for
struct-derived classes, and rebuild the statement list in original order.
The second component is the list of emitted diagnostics. -/
def runProp (runningUnderAutogen : Bool) (klass : ClassDef) : ClassDef × List Diag :=
  if runningUnderAutogen then (klass, [])
  else
    let forTStruct := klass.ancestors.any fun a => isTStruct a
    let scanned := scanStats forTStruct klass.rhs 0
    ({ ancestors := klass.ancestors,
       rhs :=
         (if forTStruct then mkTStructInitialize scanned.2.1 else []) ++
           rebuild scanned.1 klass.rhs 0 },
     scanned.2.2)

/-! Specification-side observers.  These are defined independently of the
synthesizers and are used to state the claims. -/

/-- The classification outcome of one class-body statement: `none` for a
statement that is not a recognized property declaration. -/
def statInfo (stat : Expr) : Option PropInfo :=
  match asSend stat with
  | some (fn, args) => (parseProp fn args).1
  | none => none

/-- The replacement sequence of one class-body statement, if any. -/
def replOf (forTStruct : Bool) (stat : Expr) : Option (List Expr) :=
  match asSend stat with
  | some (fn, args) =>
    match (parseProp fn args).1 with
    | some info => some (processProp info forTStruct)
    | none => none
  | none => none

/-- One traversal of the original statement order, emitting each statement
unchanged or substituting its replacement sequence. -/
def flattenRepl (forTStruct : Bool) : List Expr → List Expr
  | [] => []
  | stat :: rest => ((replOf forTStruct stat).getD [stat]) ++ flattenRepl forTStruct rest

/-- Is this statement a (nested) class definition. -/
def isClassDef : Expr → Bool
  | .classDef _ _ _ => true
  | _ => false

/-- Is this statement a method definition named `n`. -/
def isMethodNamed (n : String) : Expr → Bool
  | .methodDef m _ _ => m == n
  | _ => false

/-- The body of the first nested class in a replacement sequence. -/
def mutatorRhsOf (nodes : List Expr) : Option (List Expr) :=
  (nodes.find? isClassDef).map fun e =>
    match e with
    | .classDef _ _ rhs => rhs
    | _ => []

/-- The name bound by a (possibly keyword/optional/rest-wrapped) parameter. -/
def argNameOf : Expr → String
  | .keywordArg e => argNameOf e
  | .optionalArg a _ => argNameOf a
  | .restArg e => argNameOf e
  | .lvar n => n
  | _ => ""

/-- Is this parameter an optional (defaulted) parameter. -/
def isOptArg : Expr → Bool
  | .optionalArg _ _ => true
  | _ => false

/-- The parameter list of a method definition. -/
def methodArgsOf : Expr → List Expr
  | .methodDef _ args _ => args
  | _ => []

/-- The body of a method definition. -/
def methodBodyOf : Expr → Option Expr
  | .methodDef _ _ body => some body
  | _ => none

/-- The synthesized constructor among a replacement sequence. -/
def initializerOf (nodes : List Expr) : Option Expr :=
  nodes.find? (isMethodNamed "initialize")

/-- The names of the non-optional parameters of a method definition. -/
def requiredParamNames (e : Expr) : List String :=
  (methodArgsOf e).filterMap fun a => if isOptArg a then none else some (argNameOf a)

/-- The names of the optional parameters of a method definition. -/
def optionalParamNames (e : Expr) : List String :=
  (methodArgsOf e).filterMap fun a => if isOptArg a then some (argNameOf a) else none

/-- The required-parameter names of the constructor synthesized for `props`. -/
def initRequiredNames (props : List PropInfo) : List String :=
  ((initializerOf (mkTStructInitialize props)).map requiredParamNames).getD []

/-- The optional-parameter names of the constructor synthesized for `props`. -/
def initOptionalNames (props : List PropInfo) : List String :=
  ((initializerOf (mkTStructInitialize props)).map optionalParamNames).getD []

/-- The instance variables assigned by an instruction sequence, in order. -/
def assignedTargets : Expr → List String
  | .insSeq stats _ =>
    stats.filterMap fun s =>
      match s with
      | .assign (.ivar v) _ => some v
      | _ => none
  | _ => []

/-- The final expression of an instruction sequence. -/
def finalOf : Expr → Option Expr
  | .insSeq _ e => some e
  | _ => none

/-- The symbol keys of a sig's parameter hash, in order. -/
def sigParamKeys : Expr → List String
  | .sigAnn (some (.hash ks _)) _ =>
    ks.filterMap fun k =>
      match k with
      | .symLit s => some s
      | _ => none
  | _ => []

/-- The value entries of a sig's parameter hash, in order. -/
def sigParamVals : Expr → List Expr
  | .sigAnn (some (.hash _ vs)) _ => vs
  | _ => []

/-- Is this literal a symbol literal. -/
def isSymbolLit : Expr → Bool
  | .symLit _ => true
  | _ => false

/-- The input-side precondition of having no default: the options source (if
any) holds no `default` key and no truthy `factory` key. -/
def noDefaultFactory : Option (List (Expr × Expr)) → Bool
  | none => true
  | some rules =>
    !ASTUtil.hasHashValue rules "default" && !ASTUtil.hasTruthyHashValue rules "factory"

/-- The getter body synthesized for `n` in a replacement sequence. -/
def getterBodyFor (n : String) (nodes : List Expr) : Option Expr :=
  (nodes.find? (isMethodNamed n)).bind methodBodyOf

/-! Helper lemmas. -/

theorem beq_name_setName (s : String) : (s == s ++ "=") = false := by
  apply beq_eq_false_iff_ne.mpr
  intro h
  have hl := congrArg String.length h
  rw [String.length_append] at hl
  have h1 : ("=" : String).length = 1 := rfl
  omega

theorem beq_append_ne (s : String) {a b : String} (hab : a ≠ b) :
    (s ++ a == s ++ b) = false := by
  apply beq_eq_false_iff_ne.mpr
  intro h
  apply hab
  have hd := congrArg String.data h
  simp only [String.data_append, List.append_right_inj] at hd
  cases a; cases b; simp_all

theorem tstructRequiredArgs_names (props : List PropInfo) :
    (tstructRequiredArgs props).map argNameOf =
      (props.filter fun p => p.default_.isNone).map PropInfo.name := by
  induction props with
  | nil => rfl
  | cons p t ih =>
    cases hd : p.default_ <;>
      simp_all [tstructRequiredArgs, List.filterMap_cons, List.filter_cons, argNameOf,
        MK.KeywordArg, MK.Local]

theorem tstructOptionalArgs_names (props : List PropInfo) :
    (tstructOptionalArgs props).map argNameOf =
      (props.filter fun p => p.default_.isSome).map PropInfo.name := by
  induction props with
  | nil => rfl
  | cons p t ih =>
    cases hd : p.default_ <;>
      simp_all [tstructOptionalArgs, List.filterMap_cons, List.filter_cons, argNameOf,
        MK.OptionalArg, MK.KeywordArg, MK.Local]

theorem tstructRequiredArgs_opt (props : List PropInfo) :
    (tstructRequiredArgs props).map isOptArg =
      (props.filter fun p => p.default_.isNone).map fun _ => false := by
  induction props with
  | nil => rfl
  | cons p t ih =>
    cases hd : p.default_ <;>
      simp_all [tstructRequiredArgs, List.filterMap_cons, List.filter_cons, isOptArg,
        MK.KeywordArg, MK.Local]

theorem tstructOptionalArgs_opt (props : List PropInfo) :
    (tstructOptionalArgs props).map isOptArg =
      (props.filter fun p => p.default_.isSome).map fun _ => true := by
  induction props with
  | nil => rfl
  | cons p t ih =>
    cases hd : p.default_ <;>
      simp_all [tstructOptionalArgs, List.filterMap_cons, List.filter_cons, isOptArg,
        MK.OptionalArg, MK.KeywordArg, MK.Local]

theorem initializerOf_mkTStructInitialize (props : List PropInfo) :
    initializerOf (mkTStructInitialize props) =
      some (MK.SyntheticMethod "initialize"
        (tstructRequiredArgs props ++ tstructOptionalArgs props)
        (MK.InsSeq (props.map fun p => MK.Assign (MK.Instance ("@" ++ p.name)) (MK.Local p.name))
          MK.ZSuper)) := by
  simp [mkTStructInitialize, initializerOf, List.find?, isMethodNamed, MK.SigVoid,
    MK.SyntheticMethod]

theorem reqArgs_requiredNames (props : List PropInfo) :
    (tstructRequiredArgs props).filterMap
        (fun a => if isOptArg a then none else some (argNameOf a)) =
      (props.filter fun p => p.default_.isNone).map PropInfo.name := by
  induction props with
  | nil => rfl
  | cons p t ih =>
    cases hd : p.default_ <;>
      simp_all [tstructRequiredArgs, List.filterMap_cons, List.filter_cons, isOptArg,
        argNameOf, MK.KeywordArg, MK.Local]

theorem optArgs_requiredNames (props : List PropInfo) :
    (tstructOptionalArgs props).filterMap
        (fun a => if isOptArg a then none else some (argNameOf a)) = [] := by
  induction props with
  | nil => rfl
  | cons p t ih =>
    simp only [tstructOptionalArgs] at ih ⊢
    cases hd : p.default_ with
    | none => simpa [List.filterMap_cons, hd] using ih
    | some d =>
      simpa [List.filterMap_cons, hd, isOptArg, MK.OptionalArg, MK.KeywordArg, MK.Local]
        using ih

theorem reqArgs_optionalNames (props : List PropInfo) :
    (tstructRequiredArgs props).filterMap
        (fun a => if isOptArg a then some (argNameOf a) else none) = [] := by
  induction props with
  | nil => rfl
  | cons p t ih =>
    simp only [tstructRequiredArgs] at ih ⊢
    cases hd : p.default_ with
    | none =>
      simpa [List.filterMap_cons, hd, isOptArg, MK.KeywordArg, MK.Local] using ih
    | some d => simpa [List.filterMap_cons, hd] using ih

theorem optArgs_optionalNames (props : List PropInfo) :
    (tstructOptionalArgs props).filterMap
        (fun a => if isOptArg a then some (argNameOf a) else none) =
      (props.filter fun p => p.default_.isSome).map PropInfo.name := by
  induction props with
  | nil => rfl
  | cons p t ih =>
    cases hd : p.default_ <;>
      simp_all [tstructOptionalArgs, List.filterMap_cons, List.filter_cons, isOptArg,
        argNameOf, MK.OptionalArg, MK.KeywordArg, MK.Local]

theorem requiredParamNames_init (props : List PropInfo) (body : Expr) :
    requiredParamNames (MK.SyntheticMethod "initialize"
        (tstructRequiredArgs props ++ tstructOptionalArgs props) body) =
      (props.filter fun p => p.default_.isNone).map PropInfo.name := by
  simp only [requiredParamNames, MK.SyntheticMethod, methodArgsOf, List.filterMap_append]
  rw [reqArgs_requiredNames, optArgs_requiredNames, List.append_nil]

theorem optionalParamNames_init (props : List PropInfo) (body : Expr) :
    optionalParamNames (MK.SyntheticMethod "initialize"
        (tstructRequiredArgs props ++ tstructOptionalArgs props) body) =
      (props.filter fun p => p.default_.isSome).map PropInfo.name := by
  simp only [optionalParamNames, MK.SyntheticMethod, methodArgsOf, List.filterMap_append]
  rw [reqArgs_optionalNames, optArgs_optionalNames, List.nil_append]

theorem sigKeysReq_names (props : List PropInfo) :
    (props.filterMap fun p =>
        if p.default_.isSome then none else some (MK.Symbol p.name)).filterMap
        (fun k => match k with | Expr.symLit s => some s | _ => none) =
      (props.filter fun p => p.default_.isNone).map PropInfo.name := by
  induction props with
  | nil => rfl
  | cons p t ih =>
    cases hd : p.default_ <;>
      simp_all [List.filterMap_cons, List.filter_cons, MK.Symbol]

theorem sigKeysOpt_names (props : List PropInfo) :
    (props.filterMap fun p =>
        if p.default_.isSome then some (MK.Symbol p.name) else none).filterMap
        (fun k => match k with | Expr.symLit s => some s | _ => none) =
      (props.filter fun p => p.default_.isSome).map PropInfo.name := by
  induction props with
  | nil => rfl
  | cons p t ih =>
    cases hd : p.default_ <;>
      simp_all [List.filterMap_cons, List.filter_cons, MK.Symbol]

theorem tstructSigKeys_names (props : List PropInfo) :
    (tstructSigKeys props).filterMap
        (fun k => match k with | Expr.symLit s => some s | _ => none) =
      (props.filter fun p => p.default_.isNone).map PropInfo.name ++
        (props.filter fun p => p.default_.isSome).map PropInfo.name := by
  simp only [tstructSigKeys, List.filterMap_append]
  rw [sigKeysReq_names, sigKeysOpt_names]

theorem sigValsReq_types (props : List PropInfo) :
    (props.filterMap fun p => if p.default_.isSome then none else some p.type) =
      (props.filter fun p => p.default_.isNone).map PropInfo.type := by
  induction props with
  | nil => rfl
  | cons p t ih =>
    cases hd : p.default_ <;> simp_all [List.filterMap_cons, List.filter_cons]

theorem sigValsOpt_types (props : List PropInfo) :
    (props.filterMap fun p => if p.default_.isSome then some p.type else none) =
      (props.filter fun p => p.default_.isSome).map PropInfo.type := by
  induction props with
  | nil => rfl
  | cons p t ih =>
    cases hd : p.default_ <;> simp_all [List.filterMap_cons, List.filter_cons]

theorem tstructSigVals_types (props : List PropInfo) :
    tstructSigVals props =
      (props.filter fun p => p.default_.isNone).map PropInfo.type ++
        (props.filter fun p => p.default_.isSome).map PropInfo.type := by
  simp only [tstructSigVals]
  rw [sigValsReq_types, sigValsOpt_types]

theorem assignedTargets_body (props : List PropInfo) :
    assignedTargets
        (MK.InsSeq (props.map fun p => MK.Assign (MK.Instance ("@" ++ p.name)) (MK.Local p.name))
          MK.ZSuper) =
      props.map fun p => "@" ++ p.name := by
  simp only [assignedTargets, MK.InsSeq, MK.Assign, MK.Instance, MK.Local]
  induction props with
  | nil => rfl
  | cons p t ih => simp_all [List.filterMap_cons]

theorem applyRules_type (base : PropInfo) (rules? : Option (List (Expr × Expr))) :
    ((applyRules base rules?).1).type = base.type := by
  cases rules? <;> simp [applyRules]

theorem applyRules_name (base : PropInfo) (rules? : Option (List (Expr × Expr))) :
    ((applyRules base rules?).1).name = base.name := by
  cases rules? <;> simp [applyRules]

theorem applyRules_default_none (base : PropInfo) (rules? : Option (List (Expr × Expr)))
    (hb : base.default_ = none) (h : noDefaultFactory rules? = true) :
    ((applyRules base rules?).1).default_ = none := by
  cases rules? with
  | none => simpa [applyRules] using hb
  | some rules =>
    simp only [noDefaultFactory, Bool.and_eq_true, Bool.not_eq_true'] at h
    simp [applyRules, h.1, h.2]

theorem scanStats_keys_ge (f : Bool) (stats : List Expr) :
    ∀ (i : Nat) (kv : Nat × List Expr), kv ∈ (scanStats f stats i).1 → i ≤ kv.1 := by
  induction stats with
  | nil => intro i kv h; simp [scanStats] at h
  | cons stat rest ih =>
    intro i kv h
    cases hs : asSend stat with
    | none =>
      simp only [scanStats, hs] at h
      exact Nat.le_of_succ_le (ih (i + 1) kv h)
    | some p =>
      obtain ⟨fn, args⟩ := p
      cases hp : parseProp fn args with
      | mk o ds =>
        cases o with
        | none =>
          simp only [scanStats, hs, hp] at h
          exact Nat.le_of_succ_le (ih (i + 1) kv h)
        | some info =>
          simp only [scanStats, hs, hp] at h
          rcases List.mem_cons.mp h with h1 | h2
          · subst h1; exact Nat.le_refl i
          · exact Nat.le_of_succ_le (ih (i + 1) kv h2)

theorem lookupRepl_none (i : Nat) (m : List (Nat × List Expr))
    (h : ∀ kv ∈ m, i < kv.1) : lookupRepl m i = none := by
  induction m with
  | nil => rfl
  | cons kv rest ih =>
    have hk := h kv (List.mem_cons_self _ _)
    have hne : (kv.1 == i) = false := beq_eq_false_iff_ne.mpr (by omega)
    simp only [lookupRepl, hne, Bool.false_eq_true, if_false]
    exact ih fun kv' hm => h kv' (List.mem_cons_of_mem _ hm)

theorem rebuild_skip (k : Nat) (x : List Expr) (m : List (Nat × List Expr))
    (stats : List Expr) :
    ∀ j : Nat, k < j → rebuild ((k, x) :: m) stats j = rebuild m stats j := by
  induction stats with
  | nil => intros; rfl
  | cons stat rest ih =>
    intro j hj
    have hne : ((k, x).1 == j) = false := beq_eq_false_iff_ne.mpr (by simp; omega)
    cases ho : lookupRepl m j with
    | none => simp [rebuild, lookupRepl, hne, ho, ih (j + 1) (by omega)]
    | some repl => simp [rebuild, lookupRepl, hne, ho, ih (j + 1) (by omega)]

theorem rebuild_scanStats (f : Bool) (stats : List Expr) :
    ∀ i : Nat, rebuild (scanStats f stats i).1 stats i = flattenRepl f stats := by
  induction stats with
  | nil => intro i; rfl
  | cons stat rest ih =>
    intro i
    have hge := scanStats_keys_ge f rest
    have hm : ∀ kv ∈ (scanStats f rest (i + 1)).1, i < kv.1 := fun kv h => hge (i + 1) kv h
    cases hs : asSend stat with
    | none =>
      simp only [scanStats, hs, flattenRepl, replOf, rebuild]
      rw [lookupRepl_none i _ hm]
      simp [ih (i + 1)]
    | some p =>
      obtain ⟨fn, args⟩ := p
      cases hp : parseProp fn args with
      | mk o ds =>
        cases o with
        | none =>
          simp only [scanStats, hs, hp, flattenRepl, replOf, rebuild]
          rw [lookupRepl_none i _ hm]
          simp [ih (i + 1)]
        | some info =>
          simp only [scanStats, hs, hp, flattenRepl, replOf, rebuild]
          simp only [lookupRepl, beq_self_eq_true, if_true]
          rw [rebuild_skip i _ _ rest (i + 1) (Nat.lt_succ_self i), ih (i + 1)]
          simp

theorem scanStats_props (f : Bool) (stats : List Expr) :
    ∀ i : Nat, (scanStats f stats i).2.1 = stats.filterMap statInfo := by
  induction stats with
  | nil => intro i; rfl
  | cons stat rest ih =>
    intro i
    cases hs : asSend stat with
    | none => simp [scanStats, statInfo, hs, List.filterMap_cons, ih (i + 1)]
    | some p =>
      obtain ⟨fn, args⟩ := p
      cases hp : parseProp fn args with
      | mk o ds =>
        cases o <;> simp [scanStats, statInfo, hs, hp, List.filterMap_cons, ih (i + 1)]

/-! The claims. -/

/-- Claim C2 (confirmed): for every struct-derived class, the synthesized
constructor's sig and parameter list enumerate first every record without a
default value in original declaration order, then every record with a
default value in original declaration order (so declarations `a` required,
`b` optional, `c` required yield parameter order `a, c, b`), while the
constructor body assigns each record's backing field strictly in original
declaration order (`a, b, c`) and then invokes the superclass constructor
with no explicit arguments. -/
theorem claim2_initializer_order (props : List PropInfo) :
    ((initializerOf (mkTStructInitialize props)).map fun m => (methodArgsOf m).map argNameOf) =
        some ((props.filter fun p => p.default_.isNone).map PropInfo.name ++
          (props.filter fun p => p.default_.isSome).map PropInfo.name) ∧
    ((initializerOf (mkTStructInitialize props)).map fun m => (methodArgsOf m).map isOptArg) =
        some ((props.filter fun p => p.default_.isNone).map (fun _ => false) ++
          (props.filter fun p => p.default_.isSome).map fun _ => true) ∧
    ((mkTStructInitialize props).head?.map sigParamKeys) =
        some ((props.filter fun p => p.default_.isNone).map PropInfo.name ++
          (props.filter fun p => p.default_.isSome).map PropInfo.name) ∧
    ((mkTStructInitialize props).head?.map sigParamVals) =
        some ((props.filter fun p => p.default_.isNone).map PropInfo.type ++
          (props.filter fun p => p.default_.isSome).map PropInfo.type) ∧
    (((initializerOf (mkTStructInitialize props)).bind methodBodyOf).map assignedTargets) =
        some (props.map fun p => "@" ++ p.name) ∧
    (((initializerOf (mkTStructInitialize props)).bind methodBodyOf).bind finalOf) =
        some MK.ZSuper ∧
    ((initializerOf (mkTStructInitialize
          [{ name := "a", type := Expr.constLit "Integer" },
           { name := "b", type := Expr.constLit "Integer", default_ := some (Expr.intLit 1) },
           { name := "c", type := Expr.constLit "Integer" }])).map
        fun m => (methodArgsOf m).map argNameOf) = some ["a", "c", "b"] ∧
    (((initializerOf (mkTStructInitialize
          [{ name := "a", type := Expr.constLit "Integer" },
           { name := "b", type := Expr.constLit "Integer", default_ := some (Expr.intLit 1) },
           { name := "c", type := Expr.constLit "Integer" }])).bind methodBodyOf).map
        assignedTargets) = some ["@a", "@b", "@c"] := by
  refine ⟨?_, ?_, ?_, ?_, ?_, ?_, rfl, rfl⟩
  · rw [initializerOf_mkTStructInitialize]
    show some ((tstructRequiredArgs props ++ tstructOptionalArgs props).map argNameOf) = _
    rw [List.map_append, tstructRequiredArgs_names, tstructOptionalArgs_names]
  · rw [initializerOf_mkTStructInitialize]
    show some ((tstructRequiredArgs props ++ tstructOptionalArgs props).map isOptArg) = _
    rw [List.map_append, tstructRequiredArgs_opt, tstructOptionalArgs_opt]
  · show some ((tstructSigKeys props).filterMap fun k =>
        match k with | Expr.symLit s => some s | _ => none) = _
    rw [tstructSigKeys_names]
  · show some (tstructSigVals props) = _
    rw [tstructSigVals_types]
  · rw [initializerOf_mkTStructInitialize]
    show some (assignedTargets
        (MK.InsSeq (props.map fun p => MK.Assign (MK.Instance ("@" ++ p.name)) (MK.Local p.name))
          MK.ZSuper)) = _
    rw [assignedTargets_body]
  · rw [initializerOf_mkTStructInitialize]
    rfl

/-- Claim C3 (confirmed): for every class body, the rebuilt statement list is
obtained by traversing the original statement order exactly once, emitting
each statement unchanged when it has no stored replacement and substituting
its stored replacement sequence otherwise (after the initializer prefix of a
struct-derived class), so the relative order of matched and unmatched
statements is preserved. -/
theorem claim3_rebuild_order (klass : ClassDef) :
    (runProp false klass).1.rhs =
      (if klass.ancestors.any (fun a => isTStruct a) then
          mkTStructInitialize (klass.rhs.filterMap statInfo)
        else []) ++
        flattenRepl (klass.ancestors.any fun a => isTStruct a) klass.rhs := by
  simp only [runProp, Bool.false_eq_true, if_false]
  rw [scanStats_props, rebuild_scanStats]

/-- Claim C7 (confirmed): every call expression with 4 or more raw positional
arguments is rejected by the classification, whatever its function name: the
statement keeps no replacement and no diagnostic is emitted. -/
theorem claim7_arity_reject (fn : String) (args : List Expr) (h : 4 ≤ args.length) :
    parseProp fn args = (none, []) ∧
      ∀ (recv : Expr) (f : Bool), replOf f (Expr.send recv fn args) = none := by
  have hp : parseProp fn args = (none, []) := by
    cases hc : classifyFun fn with
    | none => simp [parseProp, hc]
    | some pre =>
      obtain ⟨imm, preName, preType⟩ := pre
      simp [parseProp, hc, h]
  exact ⟨hp, fun recv f => by simp [replOf, asSend, hp]⟩

/-- Witness for claim C7 at a concrete 4-argument call. -/
theorem claim7_witness :
    parseProp "prop" [Expr.nilLit, Expr.nilLit, Expr.nilLit, Expr.nilLit] = (none, []) ∧
      replOf false (Expr.send Expr.emptyTree "prop"
        [Expr.nilLit, Expr.nilLit, Expr.nilLit, Expr.nilLit]) = none := by
  have h := claim7_arity_reject "prop" [Expr.nilLit, Expr.nilLit, Expr.nilLit, Expr.nilLit]
    (by simp)
  exact ⟨h.1, h.2 Expr.emptyTree false⟩

/-- Claim C9 (confirmed): when the analysis context is flagged as running in
signature-autogeneration mode, the pass leaves every class body exactly as
given and emits nothing. -/
theorem claim9_autogen_untouched (klass : ClassDef) : runProp true klass = (klass, []) := rfl

/-- Counterexample to claim C1 as stated: the recognized immutable
declaration `const :foo, MyType` (an unresolvable user-defined constant
type) produces a replacement sequence, but that sequence contains no nested
mutator class at all — the class is only emitted for recognizable
collection types. -/
theorem claim1_counterexample :
    (replOf false (Expr.send Expr.emptyTree "const"
        [Expr.symLit "foo", Expr.unresolvedConst Expr.emptyTree "MyType"])).isSome = true ∧
    ((replOf false (Expr.send Expr.emptyTree "const"
        [Expr.symLit "foo", Expr.unresolvedConst Expr.emptyTree "MyType"])).getD []).any
        isClassDef = false := ⟨rfl, rfl⟩

/-- Counterexample to claim C6 as stated: a token-property call supplying a
name argument (`token_prop :foo`) is not rejected — classification succeeds,
with the extra argument ignored and the name forced to `token`. -/
theorem claim6_counterexample :
    (parseProp "token_prop" [Expr.symLit "foo"]).1.isSome = true ∧
    (parseProp "timestamped_token_prop" [Expr.symLit "foo"]).1.isSome = true ∧
    ((parseProp "token_prop" [Expr.symLit "foo"]).1.map PropInfo.name) = some "token" :=
  ⟨rfl, rfl, rfl⟩

/-- Counterexample to claim C8 as stated: a `computed_by` key holding the
falsy non-identifier literal `nil` emits no diagnostic at all (the option is
skipped by the truthiness guard), although classification still succeeds
with the computed-by field unset. -/
theorem claim8_counterexample :
    (parseProp "prop" [Expr.symLit "foo", Expr.unresolvedConst Expr.emptyTree "MyType",
        Expr.hash [Expr.symLit "computed_by"] [Expr.nilLit]]).2 = [] ∧
    ((parseProp "prop" [Expr.symLit "foo", Expr.unresolvedConst Expr.emptyTree "MyType",
        Expr.hash [Expr.symLit "computed_by"] [Expr.nilLit]]).1.map
        PropInfo.computedByMethodName) = some "" ∧
    (parseProp "prop" [Expr.symLit "foo", Expr.unresolvedConst Expr.emptyTree "MyType",
        Expr.hash [Expr.symLit "computed_by"] [Expr.nilLit]]).1.isSome = true :=
  ⟨rfl, rfl, rfl⟩

/-- Claim C8 (corrected): only a truthy non-identifier-literal `computed_by`
value triggers the recoverable diagnostic; the options parser then leaves
the computed-by field unset and classification still succeeds.  (A falsy
value is skipped silently with no diagnostic, per the counterexample.) -/
theorem claim8_amended (n tn : String) (v : Expr)
    (htruthy : ASTUtil.isFalsyLit v = false) (hnotsym : isSymbolLit v = false) :
    (parseProp "prop" [Expr.symLit n, Expr.unresolvedConst Expr.emptyTree tn,
        Expr.hash [Expr.symLit "computed_by"] [v]]).2 = [Diag.computedBySymbol] ∧
    ((parseProp "prop" [Expr.symLit n, Expr.unresolvedConst Expr.emptyTree tn,
        Expr.hash [Expr.symLit "computed_by"] [v]]).1.map
        PropInfo.computedByMethodName) = some "" ∧
    (parseProp "prop" [Expr.symLit n, Expr.unresolvedConst Expr.emptyTree tn,
        Expr.hash [Expr.symLit "computed_by"] [v]]).1.isSome = true := by
  cases v <;>
    simp_all [parseProp, classifyFun, resolveName, resolveType, rulesOf, applyRules,
      ASTUtil.dupType, isDupableType, ASTUtil.hasTruthyHashValue, ASTUtil.hasHashValue,
      ASTUtil.extractHashValue, ASTUtil.isSymKey, ASTUtil.isFalsyLit, ASTUtil.thunkBody,
      isSymbolLit, isTNilable, List.find?, MK.Constant, MK.Nil]

/-- Witness for claim C8 at the concrete truthy non-identifier value `0`. -/
theorem claim8_witness :
    (parseProp "prop" [Expr.symLit "foo", Expr.unresolvedConst Expr.emptyTree "MyType",
        Expr.hash [Expr.symLit "computed_by"] [Expr.intLit 0]]).2 = [Diag.computedBySymbol] ∧
    ((parseProp "prop" [Expr.symLit "foo", Expr.unresolvedConst Expr.emptyTree "MyType",
        Expr.hash [Expr.symLit "computed_by"] [Expr.intLit 0]]).1.map
        PropInfo.computedByMethodName) = some "" ∧
    (parseProp "prop" [Expr.symLit "foo", Expr.unresolvedConst Expr.emptyTree "MyType",
        Expr.hash [Expr.symLit "computed_by"] [Expr.intLit 0]]).1.isSome = true :=
  claim8_amended "foo" "MyType" (Expr.intLit 0) rfl rfl

/-- Claim C10 (confirmed): when the options map contains both a truthy
`factory` key and a `default` key, the record's default becomes the
"unimplemented at runtime" placeholder and the `default` value is ignored
(the conclusion does not depend on `dv`). -/
theorem claim10_factory_precedence (n tn : String) (fv dv : Expr)
    (hf : ASTUtil.isFalsyLit fv = false) :
    ((parseProp "prop" [Expr.symLit n, Expr.unresolvedConst Expr.emptyTree tn,
        Expr.hash [Expr.symLit "factory", Expr.symLit "default"] [fv, dv]]).1.map
        PropInfo.default_) = some (some Expr.raiseUnimplemented) ∧
    (parseProp "prop" [Expr.symLit n, Expr.unresolvedConst Expr.emptyTree tn,
        Expr.hash [Expr.symLit "factory", Expr.symLit "default"] [fv, dv]]).1.isSome = true := by
  simp [parseProp, classifyFun, resolveName, resolveType, rulesOf, applyRules,
    ASTUtil.dupType, isDupableType, ASTUtil.hasTruthyHashValue, ASTUtil.hasHashValue,
    ASTUtil.extractHashValue, ASTUtil.isSymKey, ASTUtil.thunkBody, hf,
    isTNilable, List.find?, MK.RaiseUnimplemented]

/-- Witness for claim C10 at the concrete values `factory: true, default: 1`. -/
theorem claim10_witness :
    ((parseProp "prop" [Expr.symLit "foo", Expr.unresolvedConst Expr.emptyTree "MyType",
        Expr.hash [Expr.symLit "factory", Expr.symLit "default"]
          [Expr.trueLit, Expr.intLit 1]]).1.map PropInfo.default_) =
      some (some Expr.raiseUnimplemented) ∧
    (parseProp "prop" [Expr.symLit "foo", Expr.unresolvedConst Expr.emptyTree "MyType",
        Expr.hash [Expr.symLit "factory", Expr.symLit "default"]
          [Expr.trueLit, Expr.intLit 1]]).1.isSome = true :=
  claim10_factory_precedence "foo" "MyType" Expr.trueLit (Expr.intLit 1) rfl

theorem dupOr_eq (t : Expr) : dupOr t = t := by
  unfold dupOr ASTUtil.dupType
  split <;> rfl

/-- Claim C6 (corrected): both token-property aliases produce a record whose
name is the fixed `token` identifier and whose type is the string type,
regardless of which alias was used; but a call supplying a name argument is
not rejected — it is accepted, the extra symbol argument ignored. -/
theorem claim6_amended (fn : String) (args : List Expr) (info : PropInfo)
    (hfn : fn = "token_prop" ∨ fn = "timestamped_token_prop")
    (h : (parseProp fn args).1 = some info) :
    info.name = "token" ∧ info.type = MK.Constant "String" ∧
      ∀ s : String, (parseProp fn [Expr.symLit s]).1.isSome = true := by
  have hcf : classifyFun fn = some (false, some "token", some (MK.Constant "String")) := by
    rcases hfn with h1 | h1 <;> subst h1 <;> rfl
  have hmain : info.name = "token" ∧ info.type = MK.Constant "String" := by
    simp only [parseProp, hcf, resolveName, resolveType] at h
    split at h
    · simp at h
    · split at h
      · simp at h
      · simp only [Option.some.injEq] at h
        constructor
        · rw [← h]
          split <;> simp [applyRules_name]
        · rw [← h]
          split <;> simp [applyRules_type]
  refine ⟨hmain.1, hmain.2, ?_⟩
  intro s
  rcases hfn with h1 | h1 <;> subst h1 <;> rfl

/-- Witness for claim C6 at the concrete call of `token_prop` with a name
argument. -/
theorem claim6_witness :
    ({ name := "token", type := Expr.constLit "String" } : PropInfo).name = "token" ∧
    (parseProp "token_prop" [Expr.symLit "x"]).1.isSome = true := by
  have h := claim6_amended "token_prop" [Expr.symLit "foo"]
    { name := "token", type := Expr.constLit "String" } (Or.inl rfl) rfl
  exact ⟨h.1, h.2.2 "x"⟩

/-- Claim C4 (confirmed): the synthesized getter body is chosen by priority:
`computed_by` set — call the declared class method on self's class with a
dynamically-typed nil argument, assert the result's type against the cloned
declared type, then raise unimplemented; otherwise no if-unset value and
struct-derived class — a direct read of the backing instance field;
otherwise raise unimplemented. -/
theorem claim4_getter_body (ret : PropInfo) (forTStruct : Bool) :
    getterBodyFor ret.name (processProp ret forTStruct) =
      some (if ret.computedByMethodName != "" then
          MK.InsSeq1
            (MK.AssertType
              (MK.Send1 (MK.Send0 MK.Self "class") ret.computedByMethodName (MK.Unsafe MK.Nil))
              ret.type)
            MK.RaiseUnimplemented
        else if ret.ifunset.isNone && forTStruct then MK.Instance ("@" ++ ret.name)
        else MK.RaiseUnimplemented) := by
  cases hc : (ret.computedByMethodName != "") <;>
    cases hu : (ret.ifunset.isNone && forTStruct) <;>
      simp [processProp, getterBodyFor, hc, hu, List.find?, isMethodNamed,
        ASTUtil.mkGet, methodBodyOf, dupOr_eq, MK.Sig, MK.Hash0]

/-- Claim C1 (corrected): the class-level sig+setter is synthesized exactly
when the declaration is not immutable; a nested mutator class is synthesized
exactly when the declared type is recognizably the keyed-collection (`Hash`)
or ordered-collection (`Array`) type — and that mutator class always holds a
sig+setter, even for immutable declarations.  For any other type, including
an unresolvable user-defined constant type, no mutator class is emitted at
all. -/
theorem claim1_amended (ret : PropInfo) (forTStruct : Bool) :
    ((processProp ret forTStruct).any isClassDef =
        (ASTUtil.isProbablySymbol ret.type "Hash" || ASTUtil.isProbablySymbol ret.type "Array")) ∧
    ((processProp ret forTStruct).any (isMethodNamed (ret.name ++ "=")) = !ret.isImmutable) ∧
    ((mutatorRhsOf (processProp ret forTStruct)).all
        (fun rhs => rhs.any (isMethodNamed (ret.name ++ "="))) = true) := by
  have h1 : (ret.name == ret.name ++ "=") = false := beq_name_setName ret.name
  have h2 : (ret.name ++ "_" == ret.name ++ "=") = false := beq_append_ne _ (by decide)
  have h3 : (ret.name ++ "_!" == ret.name ++ "=") = false := beq_append_ne _ (by decide)
  cases hc : (ret.computedByMethodName != "") <;>
    cases hu : (ret.ifunset.isNone && forTStruct) <;>
      cases hi : ret.isImmutable <;>
        cases hf : ret.foreign <;>
          cases hh : ASTUtil.isProbablySymbol ret.type "Hash" <;>
            cases ha : ASTUtil.isProbablySymbol ret.type "Array" <;>
              simp [processProp, mutatorRhsOf, hc, hu, hi, hf, hh, ha, isClassDef,
                isMethodNamed, ASTUtil.mkGet, ASTUtil.mkSet, ASTUtil.mkMutator,
                MK.Sig, MK.Sig0, MK.Sig1, MK.Hash0, MK.Hash1, MK.Symbol, MK.Class,
                MK.UnresolvedConstant, MK.EmptyTree, MK.SyntheticMethod1, MK.RestArg,
                MK.KeywordArg, MK.Local, MK.Untyped, MK.Nilable, List.find?, h1, h2, h3]

/-- Claim C5 (confirmed): a recognized property declaration with no default
(no `default` key and no truthy `factory` key in its options source) whose
resulting type is a nilable wrapper gets a synthesized nil literal as its
default, and consequently its field lands in the optional (not required)
partition of the synthesized initializer. -/
theorem claim5_nilable_default (fn : String) (args : List Expr) (info : PropInfo)
    (hp : (parseProp fn args).1 = some info)
    (hnd : noDefaultFactory (rulesOf args) = true)
    (hnil : isTNilable info.type = true) :
    info.default_ = some MK.Nil ∧
      ∀ props : List PropInfo, info ∈ props → (props.map PropInfo.name).Nodup →
        info.name ∈ initOptionalNames props ∧ info.name ∉ initRequiredNames props := by
  have hdef : info.default_ = some MK.Nil := by
    cases hc : classifyFun fn with
    | none => simp [parseProp, hc] at hp
    | some pre =>
      obtain ⟨imm, preName, preType⟩ := pre
      simp only [parseProp, hc] at hp
      split at hp
      · simp at hp
      · cases hn : resolveName preName args with
        | none => simp only [hn] at hp; simp at hp
        | some nm =>
          simp only [hn] at hp
          cases ht : resolveType preType args with
          | none => simp only [ht] at hp; simp at hp
          | some ty =>
            simp only [ht] at hp
            split at hp
            · simp at hp
            · simp only [Option.some.injEq] at hp
              have hdn := applyRules_default_none
                { isImmutable := imm, name := nm, type := ty } (rulesOf args) rfl hnd
              set q := (applyRules { isImmutable := imm, name := nm, type := ty }
                (rulesOf args)).1 with hq
              have htype_if :
                  ((if (q.default_.isNone && isTNilable q.type) then
                      { q with default_ := some MK.Nil }
                    else q) : PropInfo).type = q.type := by
                split <;> rfl
              rw [← hp] at hnil
              rw [htype_if] at hnil
              have hcond : (q.default_.isNone && isTNilable q.type) = true := by
                rw [hdn, hnil]; rfl
              rw [← hp]
              simp [hcond]
  refine ⟨hdef, fun props hmem hnodup => ⟨?_, ?_⟩⟩
  · unfold initOptionalNames
    rw [initializerOf_mkTStructInitialize]
    simp only [Option.map_some', Option.getD_some]
    rw [optionalParamNames_init]
    exact List.mem_map.mpr ⟨info, List.mem_filter.mpr ⟨hmem, by simp [hdef]⟩, rfl⟩
  · unfold initRequiredNames
    rw [initializerOf_mkTStructInitialize]
    simp only [Option.map_some', Option.getD_some]
    rw [requiredParamNames_init]
    intro hcontra
    obtain ⟨p, hpmem, hpn⟩ := List.mem_map.mp hcontra
    obtain ⟨hp1, hp2⟩ := List.mem_filter.mp hpmem
    have hpe : p = info := List.inj_on_of_nodup_map hnodup hp1 hmem hpn
    rw [hpe] at hp2
    simp [hdef] at hp2

/-- Witness for claim C5 at the concrete declaration
`prop :foo, T.nilable(String)`. -/
theorem claim5_witness :
    ({ name := "foo",
       type := Expr.send (Expr.unresolvedConst Expr.emptyTree "T") "nilable"
         [Expr.unresolvedConst Expr.emptyTree "String"],
       default_ := some MK.Nil } : PropInfo).default_ = some MK.Nil ∧
    "foo" ∈ initOptionalNames
      [{ name := "foo",
         type := Expr.send (Expr.unresolvedConst Expr.emptyTree "T") "nilable"
           [Expr.unresolvedConst Expr.emptyTree "String"],
         default_ := some MK.Nil }] ∧
    "foo" ∉ initRequiredNames
      [{ name := "foo",
         type := Expr.send (Expr.unresolvedConst Expr.emptyTree "T") "nilable"
           [Expr.unresolvedConst Expr.emptyTree "String"],
         default_ := some MK.Nil }] := by
  have h := claim5_nilable_default "prop"
    [Expr.symLit "foo", Expr.send (Expr.unresolvedConst Expr.emptyTree "T") "nilable"
      [Expr.unresolvedConst Expr.emptyTree "String"]]
    { name := "foo",
      type := Expr.send (Expr.unresolvedConst Expr.emptyTree "T") "nilable"
        [Expr.unresolvedConst Expr.emptyTree "String"],
      default_ := some MK.Nil }
    rfl rfl rfl
  have h2 := h.2
    [{ name := "foo",
       type := Expr.send (Expr.unresolvedConst Expr.emptyTree "T") "nilable"
         [Expr.unresolvedConst Expr.emptyTree "String"],
       default_ := some MK.Nil }]
    (List.mem_singleton.mpr rfl) (by simp)
  exact ⟨h.1, h2.1, h2.2⟩
